import Mathlib

/-!
Verification of the vibe-rss feed proxy and renderer.

The development shallowly embeds the two components of the repository:

* the Express route handler `router.get("/")` in `routes/rss.js` (the feed
  proxy), modelled as the pure function `handleRss` over an explicit outcome
  of the outbound `axios.get` call;
* the browser renderer in `app.js` (`displayFeed`, `displayRss`,
  `displayAtom`, `escapeHtml`, `stripHtml`, `formatDate`,
  `saveCurrentFeed`, `removeSavedFeed`, `readSavedFeeds`), modelled over an
  explicit XML-tree type standing for the DOM produced by `DOMParser`.

External browser/Node builtins (the WHATWG `URL` constructor, `JSON.parse`,
`new Date`, the html-to-text conversion performed by `div.innerHTML`
assignment followed by `textContent`) are modelled explicitly: `URL` by a
small scheme parser, and the others by function parameters, since their
behaviour is not part of this repository's code.

Strings are modelled as Lean `String` (sequences of code points); JavaScript
string indexing is by UTF-16 units, which agrees with the code-point view on
all inputs without astral-plane characters.
-/

/-! ## JavaScript string helpers -/

/-- Whitespace recognised by `String.prototype.trim` (ASCII subset, which also
matches the leading/trailing strip performed by the WHATWG URL parser). -/
def jsWsChar (c : Char) : Bool :=
  c = ' ' || c = '\t' || c = '\n' || c = '\r' || c = '\x0b' || c = '\x0c'

/-- Trim on the character list. -/
def trimCh (l : List Char) : List Char :=
  ((l.dropWhile jsWsChar).reverse.dropWhile jsWsChar).reverse

/-- Model of `String.prototype.trim`. -/
def jsTrim (s : String) : String :=
  String.mk (trimCh s.data)

/-- Model of `text.substring(0, n)` for a non-negative bound. -/
def jsTake (s : String) (n : Nat) : String :=
  String.mk (s.data.take n)

/-- JavaScript `x || d` where `x` is an optional string (`undefined` or a
string): the default is taken when `x` is `undefined` or the empty string,
both of which are falsy. -/
def jsOrStr (x : Option String) (d : String) : String :=
  match x with
  | none => d
  | some s => if s = "" then d else s

/-- JavaScript truthiness of an optional string, keeping the string exactly
when it is present and non-empty. -/
def jsStrTruthy (x : Option String) : Option String :=
  match x with
  | none => none
  | some s => if s = "" then none else some s

/-! ## Model of the WHATWG URL constructor

`new URL(url)` (Node and browser) strips leading/trailing C0-control/space
characters, then requires an `alpha (alphanum | + | - | .)* :` scheme.  The
`protocol` property is the scheme lower-cased with a trailing colon.  This
model captures scheme extraction, which is all the repository's code
consults (`new URL(url)` success in `routes/rss.js`, and
`parsed.protocol === "http:" || parsed.protocol === "https:"` in
`isValidFeedUrl`). -/

def schemeChar (c : Char) : Bool :=
  c.isAlphanum || c = '+' || c = '-' || c = '.'

/-- Scheme of `s` (lower-cased, without the colon) when `new URL(s)`
succeeds, `none` when the constructor throws. -/
def urlScheme (s : String) : Option String :=
  match trimCh s.data with
  | [] => none
  | c :: _ =>
    if c.isAlpha then
      let l := trimCh s.data
      let sch := l.takeWhile schemeChar
      if (l.drop sch.length).head? = some ':' then
        some (String.mk (sch.map Char.toLower))
      else none
    else none

/-- `new URL(s)` succeeds. -/
def urlParses (s : String) : Bool :=
  (urlScheme s).isSome

/-- Model of `isValidFeedUrl` in `app.js`: the URL parses and its protocol is
`http:` or `https:`. -/
def isValidFeedUrl (s : String) : Bool :=
  match urlScheme s with
  | none => false
  | some p => p == "http" || p == "https"

/-! ## Feed proxy handler (`routes/rss.js`)

The outcome of the single `axios.get` call is made explicit: axios rejects
with `error.response` set for a non-2xx upstream status, with
`error.request` set (and no response) when the request was sent but nothing
came back (DNS failure, refusal, timeout, redirect limit), and with neither
for request-setup failures. -/

inductive FetchOutcome where
  | success (body : String)
  | errResponse (status : Nat) (statusText : String)
  | errRequest
  | errSetup
  deriving DecidableEq

inductive RssBody where
  | xml (body : String)
  | json (error : String) (message : String) (statusCode : Option Nat)
  deriving DecidableEq

structure RssResponse where
  status : Nat
  contentType : Option String
  body : RssBody
  deriving DecidableEq

/-- Model of the route handler in `routes/rss.js`.  The first component is
the HTTP response produced; the second lists the outbound fetches performed
(at most one).  `url?` is `req.query.url`: absent, or a string (possibly
empty, as in `/api/rss?url=`); both absent and empty are falsy for the
`if (!url)` check. -/
def handleRss (url? : Option String) (fetch : String → FetchOutcome) :
    RssResponse × List String :=
  match url? with
  | none =>
    (⟨400, none, .json "Bad Request" "Missing required query parameter: url" none⟩, [])
  | some url =>
    if url = "" then
      (⟨400, none, .json "Bad Request" "Missing required query parameter: url" none⟩, [])
    else if urlParses url = false then
      (⟨400, none, .json "Bad Request" "Invalid URL format" none⟩, [])
    else
      match fetch url with
      | .success b =>
        (⟨200, some "application/xml", .xml b⟩, [url])
      | .errResponse s st =>
        (⟨s, none, .json "Feed Fetch Failed" ("Unable to fetch RSS feed: " ++ st) (some s)⟩, [url])
      | .errRequest =>
        (⟨503, none, .json "Service Unavailable"
          "Unable to reach the RSS feed URL. Please check the URL and try again." none⟩, [url])
      | .errSetup =>
        (⟨500, none, .json "Internal Server Error"
          "An error occurred while processing the request" none⟩, [url])

/-! ## Saved-feed store (`app.js`) -/

/-- Model of `saveCurrentFeed`: the stored list after clicking save with
`inputValue` in the URL box and `savedFeeds` currently stored.  The input is
trimmed; empty or invalid URLs and URLs already present leave the list
unchanged, otherwise the trimmed URL is prepended. -/
def saveCurrentFeed (inputValue : String) (savedFeeds : List String) : List String :=
  let url := jsTrim inputValue
  if url = "" then savedFeeds
  else if isValidFeedUrl url = false then savedFeeds
  else if savedFeeds.contains url then savedFeeds
  else url :: savedFeeds

/-- Model of `removeSavedFeed`: keeps the feeds different from `urlToRemove`. -/
def removeSavedFeed (urlToRemove : String) (saved : List String) : List String :=
  saved.filter (fun u => !(u == urlToRemove))

/-! ## readSavedFeeds (`app.js`)

`JSON.parse` is external; its result (when it does not throw) is modelled by
the inductive `JVal`.  `raw` is `localStorage.getItem(SAVED_FEEDS_KEY)`:
`none` for `null`, otherwise the stored string. -/

inductive JVal where
  | jnull
  | jbool (b : Bool)
  | jnum (n : Int)
  | jstr (s : String)
  | jarr (xs : List JVal)
  | jobj (fields : List (String × JVal))

/-- Model of `readSavedFeeds`: `parse` is `JSON.parse`, returning `none` when
it would throw.  A falsy (absent or empty) raw value yields `[]`; a parse
failure is caught and yields `[]`; a non-array value yields `[]`; an array is
filtered down to its string elements whose trim is non-empty. -/
def readSavedFeeds (parse : String → Option JVal) (raw : Option String) : List String :=
  match raw with
  | none => []
  | some r =>
    if r = "" then []
    else
      match parse r with
      | none => []
      | some v =>
        match v with
        | .jarr xs =>
          xs.filterMap (fun x =>
            match x with
            | .jstr s => if jsTrim s = "" then none else some s
            | _ => none)
        | _ => []

/-! ## XML tree model

The DOM produced by `DOMParser.parseFromString(xmlText, "text/xml")` is
modelled as a tree of elements and text nodes.  A document is the list of its
top-level nodes.  `querySelectorAll("t")` on an element returns the `t`
elements among its descendants (excluding the element itself) in document
order; on a document it returns all `t` elements including the roots;
`querySelector` returns the first such element.  `textContent` concatenates
the text descendants; `getAttribute` looks an attribute up by name,
returning `null` (`none`) when absent. -/

inductive XNode where
  | elem (name : String) (attrs : List (String × String)) (children : List XNode)
  | text (s : String)

/-! All elements named `t` in the subtree rooted at a node (the node
included), in document order: model of a `querySelectorAll` tag-selector
search. -/
mutual
def qsaSelf (t : String) : XNode → List XNode
  | .text _ => []
  | .elem n a ch => (if n = t then [XNode.elem n a ch] else []) ++ qsaL t ch

def qsaL (t : String) : List XNode → List XNode
  | [] => []
  | c :: cs => qsaSelf t c ++ qsaL t cs
end

/-- `el.querySelectorAll(t)`: descendants of `el` only. -/
def qsaN (t : String) : XNode → List XNode
  | .text _ => []
  | .elem _ _ ch => qsaL t ch

/-- `el.querySelector(t)`. -/
def qs1N (t : String) (n : XNode) : Option XNode :=
  (qsaN t n).head?

/-- `document.querySelector(t)` over the document's top-level node list. -/
def qs1Doc (t : String) (doc : List XNode) : Option XNode :=
  (qsaL t doc).head?

/-! Number of elements named `t` in a subtree / a forest (document order is
irrelevant for the count; defined independently of `qsaL` so that the two can
be compared). -/
mutual
def cntSelf (t : String) : XNode → Nat
  | .text _ => 0
  | .elem n _ ch => (if n = t then 1 else 0) + cntL t ch

def cntL (t : String) : List XNode → Nat
  | [] => 0
  | c :: cs => cntSelf t c + cntL t cs
end

/-- Number of elements named `t` among the descendants of a node. -/
def cntN (t : String) : XNode → Nat
  | .text _ => 0
  | .elem _ _ ch => cntL t ch

/-! Model of `node.textContent`: concatenation of all text descendants. -/
mutual
def textContentN : XNode → String
  | .text s => s
  | .elem _ _ ch => textContentL ch

def textContentL : List XNode → String
  | [] => ""
  | c :: cs => textContentN c ++ textContentL cs
end

/-- `el.getAttribute(name)`. -/
def getAttr (name : String) : XNode → Option String
  | .text _ => none
  | .elem _ attrs _ => (attrs.find? (fun p => p.1 == name)).map (fun p => p.2)

/-! ## Renderer string utilities (`app.js`) -/

/-- Serialization of one character of a text node when read back through
`innerHTML` (the `escapeHtml` trick: `div.textContent = text; div.innerHTML`).
Per the HTML fragment-serialization algorithm, text mode escapes `&`,
U+00A0, `<` and `>` and nothing else; in particular quotes pass through. -/
def escapeHtmlChar (c : Char) : String :=
  if c = '&' then "&amp;"
  else if c = '\u00A0' then "&nbsp;"
  else if c = '<' then "&lt;"
  else if c = '>' then "&gt;"
  else String.mk [c]

/-- Model of `escapeHtml` in `app.js`. -/
def escapeHtml (s : String) : String :=
  String.mk (s.data.flatMap (fun c => (escapeHtmlChar c).data))

/-- Model of `stripHtml(html, maxLength)` in `app.js`.  `toText` is the
external html-to-plain-text conversion (`div.innerHTML = html` followed by
`div.textContent`); the function then truncates to `maxLength` characters
with a `...` suffix when the plain text is longer, and escapes the result. -/
def stripHtml (toText : String → String) (html : String) (maxLength : Nat) : String :=
  let text := toText html
  let text2 := if maxLength < text.length then jsTake text maxLength ++ "..." else text
  escapeHtml text2

/-- Result of the external `new Date(s)` parse: `none` stands for an Invalid
Date (`new Date` itself never throws on a string argument). -/
structure SimpleDate where
  year : Nat
  month : Nat
  day : Nat

/-- Month names used by `toLocaleDateString` with the short month format in the "en-US" locale;
`month` is 1-based in this model. -/
def monthShort (m : Nat) : String :=
  ["Jan", "Feb", "Mar", "Apr", "May", "Jun",
   "Jul", "Aug", "Sep", "Oct", "Nov", "Dec"].getD (m - 1) ""

/-- Model of `formatDate` in `app.js`.  `dateParse` is the external
`new Date` parse.  On a valid date, `toLocaleDateString` with the fixed
"en-US" numeric-year, short-month, numeric-day options renders `Mon D, YYYY`; on an
Invalid Date it renders the fixed string `"Invalid Date"`.  The `catch`
branch of the source (returning `dateString` unchanged) is unreachable:
neither `new Date` on a string nor `toLocaleDateString` with these fixed
valid options throws. -/
def formatDate (dateParse : String → Option SimpleDate) (dateString : String) : String :=
  match dateParse dateString with
  | some d => monthShort d.month ++ " " ++ Nat.repr d.day ++ ", " ++ Nat.repr d.year
  | none => "Invalid Date"

/-- The external capabilities the renderer uses: `new Date` parsing and the
html-to-text conversion used by `stripHtml`. -/
structure JsEnv where
  dateParse : String → Option SimpleDate
  toText : String → String

/-! ## Rendering templates (`displayRss` / `displayAtom`)

The template literals of `app.js` are reproduced verbatim, including their
whitespace. -/

/-- The feed-stats markup of `displayRss`: item count, the label `Items`, and
the optional escaped channel description. -/
def rssStatsHtml (count : Nat) (description : Option String) : String :=
  "\n        <div>\n            <strong>" ++ Nat.repr count ++
  "</strong>\n            <span>Items</span>\n        </div>\n        " ++
  (match description with
   | some d => "<div style=\"flex: 1\"><span>" ++ escapeHtml d ++ "</span></div>"
   | none => "") ++
  "\n    "

/-- The feed-stats markup of `displayAtom`: entry count, the label `Entries`,
and the optional escaped feed subtitle. -/
def atomStatsHtml (count : Nat) (subtitle : Option String) : String :=
  "\n        <div>\n            <strong>" ++ Nat.repr count ++
  "</strong>\n            <span>Entries</span>\n        </div>\n        " ++
  (match subtitle with
   | some d => "<div style=\"flex: 1\"><span>" ++ escapeHtml d ++ "</span></div>"
   | none => "") ++
  "\n    "

/-- The date ternary shared by both item templates: a calendar span when the
raw date string is present and truthy, nothing otherwise. -/
def dateSpanHtml (env : JsEnv) (rawDate : Option String) : String :=
  match jsStrTruthy rawDate with
  | some d => "<span>📅 " ++ formatDate env.dateParse d ++ "</span>"
  | none => ""

/-- The body ternary shared by both item templates: a description div when
the extracted body string is truthy, nothing otherwise. -/
def descDivHtml (env : JsEnv) (body : String) : String :=
  if body = "" then ""
  else "<div class=\"description\">" ++ stripHtml env.toText body 300 ++ "</div>"

/-- Markup for one RSS item, from the already-extracted field values
(`itemTitle`, `itemLink`, `itemDescription` after their `|| ...` defaults,
`pubDate` still optional). -/
def rssItemHtml (env : JsEnv) (itemTitle itemLink itemDescription : String)
    (pubDate : Option String) : String :=
  "\n            <div class=\"feed-item\">\n                <h3><a href=\"" ++
  escapeHtml itemLink ++
  "\" target=\"_blank\" rel=\"noopener\">" ++
  escapeHtml itemTitle ++
  "</a></h3>\n                <div class=\"meta\">\n                    " ++
  dateSpanHtml env pubDate ++
  "\n                </div>\n                " ++
  descDivHtml env itemDescription ++
  "\n            </div>\n        "

/-- Field extraction and markup for one RSS `item` node. -/
def renderRssItem (env : JsEnv) (item : XNode) : String :=
  let itemTitle := jsOrStr ((qs1N "title" item).map textContentN) "Untitled"
  let itemLink := jsOrStr ((qs1N "link" item).map textContentN) "#"
  let itemDescription := jsOrStr ((qs1N "description" item).map textContentN) ""
  let pubDate := (qs1N "pubDate" item).map textContentN
  rssItemHtml env itemTitle itemLink itemDescription pubDate

/-- Markup for one Atom entry, from the already-extracted field values. -/
def atomEntryHtml (env : JsEnv) (entryTitle entryLink summary : String)
    (updated : Option String) : String :=
  "\n            <div class=\"feed-item\">\n                <h3><a href=\"" ++
  escapeHtml entryLink ++
  "\" target=\"_blank\" rel=\"noopener\">" ++
  escapeHtml entryTitle ++
  "</a></h3>\n                <div class=\"meta\">\n                    " ++
  dateSpanHtml env updated ++
  "\n                </div>\n                " ++
  descDivHtml env summary ++
  "\n            </div>\n        "

/-- Field extraction and markup for one Atom `entry` node: the link comes
from the `href` attribute of the first `link` element, not its text. -/
def renderAtomEntry (env : JsEnv) (entry : XNode) : String :=
  let entryTitle := jsOrStr ((qs1N "title" entry).map textContentN) "Untitled"
  let entryLink := jsOrStr ((qs1N "link" entry).bind (getAttr "href")) "#"
  let summary := jsOrStr ((qs1N "summary" entry).map textContentN)
    (jsOrStr ((qs1N "content" entry).map textContentN) "")
  let updated := (qs1N "updated" entry).map textContentN
  atomEntryHtml env entryTitle entryLink summary updated

/-- What `displayRss` / `displayAtom` write to the page: the feed title (set
through `textContent`), and the two `innerHTML` assignments. -/
structure RenderedFeed where
  feedTitle : String
  feedStats : String
  feedItems : String

/-- Model of `displayRss(channel)`. -/
def displayRss (env : JsEnv) (channel : XNode) : RenderedFeed :=
  let title := jsOrStr ((qs1N "title" channel).map textContentN) "RSS Feed"
  let items := qsaN "item" channel
  let description := (qs1N "description" channel).map textContentN
  { feedTitle := title
    feedStats := rssStatsHtml items.length (jsStrTruthy description)
    feedItems := String.join (items.map (renderRssItem env)) }

/-- Model of `displayAtom(feed)`. -/
def displayAtom (env : JsEnv) (feed : XNode) : RenderedFeed :=
  let title := jsOrStr ((qs1N "title" feed).map textContentN) "Atom Feed"
  let entries := qsaN "entry" feed
  let subtitle := (qs1N "subtitle" feed).map textContentN
  { feedTitle := title
    feedStats := atomStatsHtml entries.length (jsStrTruthy subtitle)
    feedItems := String.join (entries.map (renderAtomEntry env)) }

/-- Outcome of rendering one parsed document. -/
inductive RenderResult where
  | parseError (message : String)
  | rendered (view : RenderedFeed)
  | unrecognized (message : String)

/-- Model of the parsererror check in `fetchRssFeed` followed by
`displayFeed`: parsererror marker first, then `channel` (RSS) with priority
over `feed` (Atom), then the unrecognized-format error. -/
def renderFeed (env : JsEnv) (doc : List XNode) : RenderResult :=
  if (qs1Doc "parsererror" doc).isSome then
    .parseError "Failed to parse RSS feed. Invalid XML format."
  else
    match qs1Doc "channel" doc with
    | some ch => .rendered (displayRss env ch)
    | none =>
      match qs1Doc "feed" doc with
      | some fd => .rendered (displayAtom env fd)
      | none =>
        .unrecognized "Unrecognized feed format. Please ensure the URL is a valid RSS or Atom feed."

/-! ## Markup-injection safety predicate

`safeChunk l` says the character list `l` contains no occurrence of `<sc`,
does not end in `<`, and does not end in `<s`.  Concatenations of safe
chunks are safe, every `<`-free string is safe, and a safe string contains
no `<script` substring: this is the skeleton of the injection-safety proof
for the rendered markup. -/

def pat3 : List Char := ['<', 's', 'c']

def safeChunk (l : List Char) : Prop :=
  ¬ (pat3 <:+: l) ∧ ¬ (['<'] <:+ l) ∧ ¬ (['<', 's'] <:+ l)

/-! ## Helper lemmas: occurrence splitting over concatenations -/

theorem prefixIsInfix {α : Type} {p l : List α} (h : p <+: l) : p <:+: l := by
  obtain ⟨t, ht⟩ := h
  exact ⟨[], t, by simp [ht]⟩

theorem isInfixAppendL {p a : List Char} (b : List Char) (h : p <:+: a) :
    p <:+: a ++ b := by
  obtain ⟨s, t, rfl⟩ := h
  exact ⟨s, t ++ b, by simp⟩

theorem isInfixAppendR {p b : List Char} (a : List Char) (h : p <:+: b) :
    p <:+: a ++ b := by
  obtain ⟨s, t, rfl⟩ := h
  exact ⟨a ++ s, t, by simp⟩

theorem isInfix_append_split {α : Type} {p b : List α} :
    ∀ (a : List α), p <:+: a ++ b →
      p <:+: a ∨ p <:+: b ∨
      ∃ p₁ p₂, p = p₁ ++ p₂ ∧ p₁ ≠ [] ∧ p₂ ≠ [] ∧ p₁ <:+ a ∧ p₂ <+: b
  | [], h => Or.inr (Or.inl h)
  | c :: a', h => by
    rcases List.infix_cons_iff.mp h with hp | hi
    · have hp' : p <+: (c :: a') ++ b := hp
      by_cases hl : p.length ≤ (c :: a').length
      · exact Or.inl (prefixIsInfix ((List.isPrefix_append_of_length hl).mp hp'))
      · push_neg at hl
        have h1 : p = List.take p.length ((c :: a') ++ b) :=
          List.prefix_iff_eq_take.mp hp'
        rw [List.take_append_eq_append_take,
          List.take_of_length_le (Nat.le_of_lt hl)] at h1
        refine Or.inr (Or.inr ⟨c :: a', List.take (p.length - (c :: a').length) b,
          h1, by simp, ?_, List.suffix_refl _, List.take_prefix _ _⟩)
        intro hnil
        have h3 := congrArg List.length hnil
        have h2 := hp'.length_le
        simp only [List.length_take, List.length_nil, List.length_append,
          List.length_cons] at h3 h2 hl
        omega
    · rcases isInfix_append_split a' hi with h1 | h2 | ⟨p₁, p₂, heq, hne1, hne2, hs, hpre⟩
      · left
        obtain ⟨s, t, hst⟩ := h1
        exact ⟨c :: s, t, by simp [← hst]⟩
      · exact Or.inr (Or.inl h2)
      · exact Or.inr (Or.inr ⟨p₁, p₂, heq, hne1, hne2,
          hs.trans (List.suffix_cons c a'), hpre⟩)

theorem sfx_append_split {α : Type} {u b : List α} :
    ∀ (a : List α), u <:+ a ++ b →
      u <:+ b ∨ ∃ u₁, u₁ ≠ [] ∧ u₁ <:+ a ∧ u = u₁ ++ b
  | [], h => Or.inl h
  | c :: a', h => by
    rcases List.suffix_cons_iff.mp h with rfl | hs
    · exact Or.inr ⟨c :: a', by simp, List.suffix_refl _, rfl⟩
    · rcases sfx_append_split a' hs with h1 | ⟨u₁, hne, hsuf, rfl⟩
      · exact Or.inl h1
      · exact Or.inr ⟨u₁, hne, hsuf.trans (List.suffix_cons c a'), rfl⟩

/-! ## Helper lemmas: the safety predicate -/

theorem safeChunk_append {a b : List Char} (ha : safeChunk a) (hb : safeChunk b) :
    safeChunk (a ++ b) := by
  obtain ⟨ha1, ha2, ha3⟩ := ha
  obtain ⟨hb1, hb2, hb3⟩ := hb
  refine ⟨?_, ?_, ?_⟩
  · intro h
    rcases isInfix_append_split a h with h1 | h2 | ⟨p₁, p₂, heq, hne1, hne2, hs, hpre⟩
    · exact ha1 h1
    · exact hb1 h2
    · rcases p₁ with _ | ⟨x, _ | ⟨y, _ | ⟨z, rest⟩⟩⟩
      · exact hne1 rfl
      · simp only [pat3, List.cons_append, List.nil_append, List.cons.injEq] at heq
        obtain ⟨rfl, -⟩ := heq
        exact ha2 hs
      · simp only [pat3, List.cons_append, List.nil_append, List.cons.injEq] at heq
        obtain ⟨rfl, rfl, -⟩ := heq
        exact ha3 hs
      · have hlen : pat3.length = (x :: y :: z :: rest).length + p₂.length := by
          rw [heq, List.length_append]
        simp only [pat3, List.length_cons, List.length_nil] at hlen
        have := List.length_pos.mpr hne2
        omega
  · intro h
    rcases sfx_append_split a h with h1 | ⟨u₁, hne, hsuf, heq⟩
    · exact hb2 h1
    · rcases b with _ | ⟨y, bs⟩
      · rw [List.append_nil] at heq
        rw [← heq] at hsuf
        exact ha2 hsuf
      · have hlen : (['<'] : List Char).length = u₁.length + (y :: bs).length := by
          rw [heq, List.length_append]
        simp only [List.length_cons, List.length_nil] at hlen
        have := List.length_pos.mpr hne
        omega
  · intro h
    rcases sfx_append_split a h with h1 | ⟨u₁, hne, hsuf, heq⟩
    · exact hb3 h1
    · rcases b with _ | ⟨y, _ | ⟨z, bs⟩⟩
      · rw [List.append_nil] at heq
        rw [← heq] at hsuf
        exact ha3 hsuf
      · rcases u₁ with _ | ⟨x, _ | ⟨w, r⟩⟩
        · exact hne rfl
        · simp only [List.cons_append, List.nil_append, List.cons.injEq] at heq
          obtain ⟨rfl, rfl, -⟩ := heq
          exact ha2 hsuf
        · have hlen : (['<', 's'] : List Char).length = (x :: w :: r).length + [y].length := by
            rw [heq, List.length_append]
          simp only [List.length_cons, List.length_nil] at hlen
          omega
      · have hlen : (['<', 's'] : List Char).length = u₁.length + (y :: z :: bs).length := by
          rw [heq, List.length_append]
        simp only [List.length_cons, List.length_nil] at hlen
        have h2 := List.length_pos.mpr hne
        omega

theorem safeChunk_of_ltFree {l : List Char} (h : '<' ∉ l) : safeChunk l := by
  refine ⟨fun hc => h ?_, fun hc => h ?_, fun hc => h ?_⟩
  · exact hc.sublist.subset (by simp [pat3])
  · exact hc.sublist.subset (by simp)
  · exact hc.sublist.subset (by simp)

theorem not_script_of_safeChunk {l : List Char} (h : safeChunk l) :
    ¬ ("<script".data <:+: l) := by
  intro hc
  exact h.1 ((by decide : pat3 <:+: "<script".data).trans hc)

theorem safeChunk_flatten : ∀ {ls : List (List Char)},
    (∀ x ∈ ls, safeChunk x) → safeChunk ls.flatten
  | [], _ => safeChunk_of_ltFree (by simp)
  | x :: xs, h => by
    rw [List.flatten_cons]
    exact safeChunk_append (h x (by simp))
      (safeChunk_flatten (fun y hy => h y (List.mem_cons_of_mem x hy)))

/-! ## Helper lemmas: characters of rendered fragments -/

theorem escapeHtmlChar_no_angle {c x : Char} (h : x ∈ (escapeHtmlChar c).data) :
    x ≠ '<' ∧ x ≠ '>' := by
  unfold escapeHtmlChar at h
  split at h
  · exact (by decide : ∀ y ∈ "&amp;".data, y ≠ '<' ∧ y ≠ '>') x h
  · split at h
    · exact (by decide : ∀ y ∈ "&nbsp;".data, y ≠ '<' ∧ y ≠ '>') x h
    · split at h
      · exact (by decide : ∀ y ∈ "&lt;".data, y ≠ '<' ∧ y ≠ '>') x h
      · split at h
        · exact (by decide : ∀ y ∈ "&gt;".data, y ≠ '<' ∧ y ≠ '>') x h
        · rename_i h1 h2 h3 h4
          rcases List.mem_singleton.mp h with rfl
          exact ⟨h3, h4⟩

theorem escapeHtml_no_lt (s : String) : '<' ∉ (escapeHtml s).data := by
  intro hmem
  simp only [escapeHtml] at hmem
  rcases List.mem_flatMap.mp hmem with ⟨c, -, hc⟩
  exact (escapeHtmlChar_no_angle hc).1 rfl

theorem escapeHtml_no_gt (s : String) : '>' ∉ (escapeHtml s).data := by
  intro hmem
  simp only [escapeHtml] at hmem
  rcases List.mem_flatMap.mp hmem with ⟨c, -, hc⟩
  exact (escapeHtmlChar_no_angle hc).2 rfl

theorem stripHtml_no_lt (toText : String → String) (html : String) (n : Nat) :
    '<' ∉ (stripHtml toText html n).data := by
  unfold stripHtml
  exact escapeHtml_no_lt _

theorem digitChar_ne_lt : ∀ (m : ℕ), Nat.digitChar m ≠ '<'
  | 0 => by decide
  | 1 => by decide
  | 2 => by decide
  | 3 => by decide
  | 4 => by decide
  | 5 => by decide
  | 6 => by decide
  | 7 => by decide
  | 8 => by decide
  | 9 => by decide
  | 10 => by decide
  | 11 => by decide
  | 12 => by decide
  | 13 => by decide
  | 14 => by decide
  | 15 => by decide
  | (k + 16) => by
    unfold Nat.digitChar
    iterate 16 rw [if_neg (by omega)]
    decide

theorem toDigitsCore_ne_lt (b : ℕ) :
    ∀ (fuel n : ℕ) (ds : List Char), (∀ c ∈ ds, c ≠ '<') →
      ∀ c ∈ Nat.toDigitsCore b fuel n ds, c ≠ '<' := by
  intro fuel
  induction fuel with
  | zero => intro n ds hds c hc; exact hds c hc
  | succ f ih =>
    intro n ds hds c hc
    simp only [Nat.toDigitsCore] at hc
    by_cases hx : n / b = 0
    · rw [if_pos hx] at hc
      rcases List.mem_cons.mp hc with rfl | hmem
      · exact digitChar_ne_lt _
      · exact hds c hmem
    · rw [if_neg hx] at hc
      refine ih (n / b) (Nat.digitChar (n % b) :: ds) ?_ c hc
      intro x hx2
      rcases List.mem_cons.mp hx2 with rfl | hmem
      · exact digitChar_ne_lt _
      · exact hds x hmem

theorem natRepr_no_lt (n : ℕ) : '<' ∉ (Nat.repr n).data := by
  intro hc
  have h : (Nat.repr n).data = Nat.toDigits 10 n := rfl
  rw [h] at hc
  exact toDigitsCore_ne_lt 10 (n + 1) n [] (by simp) '<' hc rfl

theorem monthShort_no_lt : ∀ (m : ℕ), '<' ∉ (monthShort m).data
  | 0 => by decide
  | 1 => by decide
  | 2 => by decide
  | 3 => by decide
  | 4 => by decide
  | 5 => by decide
  | 6 => by decide
  | 7 => by decide
  | 8 => by decide
  | 9 => by decide
  | 10 => by decide
  | 11 => by decide
  | 12 => by decide
  | (k + 13) => by
    unfold monthShort
    rw [List.getD_eq_default]
    · decide
    · simp

theorem formatDate_no_lt (dateParse : String → Option SimpleDate) (s : String) :
    '<' ∉ (formatDate dateParse s).data := by
  unfold formatDate
  rcases dateParse s with _ | d
  · decide
  · intro h
    simp only [String.data_append, List.mem_append] at h
    rcases h with ⟨⟨⟨h1 | h2⟩ | h3⟩ | h4⟩ | h5
    · exact monthShort_no_lt d.month h1
    · revert h2; decide
    · exact natRepr_no_lt d.day h3
    · revert h4; decide
    · exact natRepr_no_lt d.year h5

theorem data_join : ∀ (l : List String), (String.join l).data = (l.map String.data).flatten := by
  have key : ∀ (l : List String) (s : String),
      (l.foldl (fun a b => a ++ b) s).data = s.data ++ (l.map String.data).flatten := by
    intro l
    induction l with
    | nil => intro s; simp
    | cons x xs ih =>
      intro s
      simp only [List.foldl_cons, List.map_cons, List.flatten_cons, ih (s ++ x),
        String.data_append, List.append_assoc]
  intro l
  have h := key l ""
  simpa [String.join] using h

/-! ## Helper lemmas: safety of the rendered templates -/

theorem safeChunk_dateSpan (env : JsEnv) (p : Option String) :
    safeChunk (dateSpanHtml env p).data := by
  unfold dateSpanHtml
  cases he : jsStrTruthy p with
  | none =>
    show safeChunk ("" : String).data
    exact ⟨by decide, by decide, by decide⟩
  | some dd =>
    simp only [String.data_append]
    exact safeChunk_append (safeChunk_append ⟨by decide, by decide, by decide⟩
      (safeChunk_of_ltFree (formatDate_no_lt env.dateParse dd)))
      ⟨by decide, by decide, by decide⟩

theorem safeChunk_descDiv (env : JsEnv) (body : String) :
    safeChunk (descDivHtml env body).data := by
  unfold descDivHtml
  by_cases hb : body = ""
  · rw [if_pos hb]
    exact ⟨by decide, by decide, by decide⟩
  · rw [if_neg hb]
    simp only [String.data_append]
    exact safeChunk_append (safeChunk_append ⟨by decide, by decide, by decide⟩
      (safeChunk_of_ltFree (stripHtml_no_lt env.toText body 300)))
      ⟨by decide, by decide, by decide⟩

theorem safeChunk_rssItemHtml (env : JsEnv) (t l d : String) (p : Option String) :
    safeChunk (rssItemHtml env t l d p).data := by
  unfold rssItemHtml
  simp only [String.data_append]
  refine safeChunk_append (safeChunk_append (safeChunk_append (safeChunk_append
    (safeChunk_append (safeChunk_append (safeChunk_append (safeChunk_append
      ?_ ?_) ?_) ?_) ?_) ?_) ?_) ?_) ?_
  · exact ⟨by decide, by decide, by decide⟩
  · exact safeChunk_of_ltFree (escapeHtml_no_lt l)
  · exact ⟨by decide, by decide, by decide⟩
  · exact safeChunk_of_ltFree (escapeHtml_no_lt t)
  · exact ⟨by decide, by decide, by decide⟩
  · exact safeChunk_dateSpan env p
  · exact ⟨by decide, by decide, by decide⟩
  · exact safeChunk_descDiv env d
  · exact ⟨by decide, by decide, by decide⟩

theorem safeChunk_atomEntryHtml (env : JsEnv) (t l s : String) (u : Option String) :
    safeChunk (atomEntryHtml env t l s u).data := by
  unfold atomEntryHtml
  simp only [String.data_append]
  refine safeChunk_append (safeChunk_append (safeChunk_append (safeChunk_append
    (safeChunk_append (safeChunk_append (safeChunk_append (safeChunk_append
      ?_ ?_) ?_) ?_) ?_) ?_) ?_) ?_) ?_
  · exact ⟨by decide, by decide, by decide⟩
  · exact safeChunk_of_ltFree (escapeHtml_no_lt l)
  · exact ⟨by decide, by decide, by decide⟩
  · exact safeChunk_of_ltFree (escapeHtml_no_lt t)
  · exact ⟨by decide, by decide, by decide⟩
  · exact safeChunk_dateSpan env u
  · exact ⟨by decide, by decide, by decide⟩
  · exact safeChunk_descDiv env s
  · exact ⟨by decide, by decide, by decide⟩

theorem safeChunk_displayRss_items (env : JsEnv) (ch : XNode) :
    safeChunk ((displayRss env ch).feedItems).data := by
  show safeChunk (String.join ((qsaN "item" ch).map (renderRssItem env))).data
  rw [data_join]
  apply safeChunk_flatten
  intro x hx
  simp only [List.map_map, List.mem_map, Function.comp] at hx
  obtain ⟨item, -, rfl⟩ := hx
  exact safeChunk_rssItemHtml env _ _ _ _

theorem safeChunk_displayAtom_items (env : JsEnv) (fd : XNode) :
    safeChunk ((displayAtom env fd).feedItems).data := by
  show safeChunk (String.join ((qsaN "entry" fd).map (renderAtomEntry env))).data
  rw [data_join]
  apply safeChunk_flatten
  intro x hx
  simp only [List.map_map, List.mem_map, Function.comp] at hx
  obtain ⟨e, -, rfl⟩ := hx
  exact safeChunk_atomEntryHtml env _ _ _ _

/-! ## Helper lemmas: `querySelectorAll` counts its matches -/

mutual
theorem qsaSelf_len (t : String) : ∀ (n : XNode), (qsaSelf t n).length = cntSelf t n
  | .text _ => rfl
  | .elem n a ch => by
    simp only [qsaSelf, cntSelf, List.length_append, qsaL_len t ch]
    split <;> simp

theorem qsaL_len (t : String) : ∀ (l : List XNode), (qsaL t l).length = cntL t l
  | [] => rfl
  | c :: cs => by
    simp only [qsaL, cntL, List.length_append, qsaSelf_len t c, qsaL_len t cs]
end

theorem qsaN_len (t : String) : ∀ (n : XNode), (qsaN t n).length = cntN t n
  | .text _ => rfl
  | .elem _ _ ch => qsaL_len t ch

/-! # Claim theorems -/

/-- C2: whenever the upstream server responds with a non-2xx status `s` and
status text `st`, the handler's own response status is `s`, its JSON error
message is exactly `"Unable to fetch RSS feed: " ++ st`, and its
`statusCode` field is `s` (and exactly one outbound fetch was made). -/
theorem c2_upstream_passthrough (url : String) (fetch : String → FetchOutcome)
    (s : Nat) (st : String) (h1 : urlParses url = true)
    (h2 : fetch url = .errResponse s st) :
    handleRss (some url) fetch =
      (⟨s, none, .json "Feed Fetch Failed" ("Unable to fetch RSS feed: " ++ st) (some s)⟩,
       [url]) := by
  have hne : url ≠ "" := by
    rintro rfl
    exact absurd h1 (by decide)
  simp [handleRss, hne, h1, h2]

/-- C2 witness: a mocked upstream 404 / "Not Found" yields result status 404
with message exactly "Unable to fetch RSS feed: Not Found". -/
theorem c2_witness :
    handleRss (some "https://example.com/feed.xml")
        (fun _ => .errResponse 404 "Not Found") =
      (⟨404, none, .json "Feed Fetch Failed" "Unable to fetch RSS feed: Not Found" (some 404)⟩,
       ["https://example.com/feed.xml"]) :=
  c2_upstream_passthrough "https://example.com/feed.xml"
    (fun _ => .errResponse 404 "Not Found") 404 "Not Found" (by decide) rfl

/-- C3 counterexample: for the whitespace-only URL `" "` the handler fails
with message "Invalid URL format", not "Missing required query parameter:
url" as the claim states (the `!url` check only catches the absent and the
empty string; a whitespace-only string reaches `new URL` and fails there). -/
theorem c3_counterexample :
    handleRss (some " ") (fun _ => .errSetup) =
      (⟨400, none, .json "Bad Request" "Invalid URL format" none⟩, [])
  ∧ "Invalid URL format" ≠ "Missing required query parameter: url" :=
  ⟨by decide, by decide⟩

/-- C3 (amended): a missing or empty `url` fails with BadRequest
"Missing required query parameter: url" and no outbound call; a non-empty
URL that is whitespace-only (trims to empty) also fails with BadRequest and
no outbound call, but with the message "Invalid URL format". -/
theorem c3_missing_url (fetch : String → FetchOutcome) (u : String)
    (hws : jsTrim u = "") :
    handleRss none fetch =
      (⟨400, none, .json "Bad Request" "Missing required query parameter: url" none⟩, [])
  ∧ handleRss (some "") fetch =
      (⟨400, none, .json "Bad Request" "Missing required query parameter: url" none⟩, [])
  ∧ (u ≠ "" → handleRss (some u) fetch =
      (⟨400, none, .json "Bad Request" "Invalid URL format" none⟩, [])) := by
  refine ⟨rfl, rfl, fun hne => ?_⟩
  have htr : trimCh u.data = [] := by
    have h := congrArg String.data hws
    simpa [jsTrim] using h
  have hp : urlParses u = false := by
    unfold urlParses urlScheme
    rw [htr]
    rfl
  simp [handleRss, hne, hp]

/-- C3 witness: the three-space URL trims to empty and is rejected with
"Invalid URL format" and no outbound call. -/
theorem c3_witness :
    handleRss (some "   ") (fun _ => .errSetup) =
      (⟨400, none, .json "Bad Request" "Invalid URL format" none⟩, []) :=
  (c3_missing_url (fun _ => .errSetup) "   " (by decide)).2.2 (by decide)

/-- C4: an outbound request that is sent but receives no response fails with
status 503 and the exact unreachable message; any other failure past the
URL checks and not an upstream status fails with status 500 and the generic
internal message. -/
theorem c4_unreachable_internal (url : String) (fetch : String → FetchOutcome)
    (h1 : urlParses url = true) :
    (fetch url = .errRequest →
      handleRss (some url) fetch =
        (⟨503, none, .json "Service Unavailable"
          "Unable to reach the RSS feed URL. Please check the URL and try again." none⟩,
         [url]))
  ∧ (fetch url = .errSetup →
      handleRss (some url) fetch =
        (⟨500, none, .json "Internal Server Error"
          "An error occurred while processing the request" none⟩, [url])) := by
  have hne : url ≠ "" := by
    rintro rfl
    exact absurd h1 (by decide)
  constructor
  · intro h2
    simp [handleRss, hne, h1, h2]
  · intro h2
    simp [handleRss, hne, h1, h2]

/-- C4 witness: both failure shapes at a concrete URL. -/
theorem c4_witness :
    handleRss (some "https://example.com/a") (fun _ => .errRequest) =
      (⟨503, none, .json "Service Unavailable"
        "Unable to reach the RSS feed URL. Please check the URL and try again." none⟩,
       ["https://example.com/a"])
  ∧ handleRss (some "https://example.com/a") (fun _ => .errSetup) =
      (⟨500, none, .json "Internal Server Error"
        "An error occurred while processing the request" none⟩, ["https://example.com/a"]) :=
  ⟨(c4_unreachable_internal "https://example.com/a" (fun _ => .errRequest) (by decide)).1 rfl,
   (c4_unreachable_internal "https://example.com/a" (fun _ => .errSetup) (by decide)).2 rfl⟩

/-- C5: when the plain text of an entry body exceeds 300 characters,
`stripHtml` keeps exactly the first 300 characters and appends the
three-character ellipsis, so the body text has length 303 (hence at most
303) and ends with "..."; the length is measured on the plain text before
escaping, and text of length at most 300 is passed to escaping unchanged,
with no ellipsis appended. -/
theorem c5_truncation (toText : String → String) (html : String) :
    (300 < (toText html).length →
      stripHtml toText html 300 = escapeHtml (jsTake (toText html) 300 ++ "...")
      ∧ (jsTake (toText html) 300 ++ "...").length = 303
      ∧ "...".data <:+ (jsTake (toText html) 300 ++ "...").data)
  ∧ ((toText html).length ≤ 300 → stripHtml toText html 300 = escapeHtml (toText html)) := by
  constructor
  · intro h
    refine ⟨?_, ?_, ?_⟩
    · simp only [stripHtml]
      rw [if_pos h]
    · have hlen : (jsTake (toText html) 300).length = 300 := by
        show ((toText html).data.take 300).length = 300
        rw [List.length_take]
        have h' : 300 < (toText html).data.length := h
        omega
      rw [String.length_append, hlen]
      rfl
    · rw [String.data_append]
      exact List.suffix_append _ _
  · intro h
    simp only [stripHtml]
    rw [if_neg (by omega)]

/-- C5 witness: a 301-character plain text is truncated to the first 300
characters plus "...", of total length 303. -/
theorem c5_witness :
    stripHtml id (String.mk (List.replicate 301 'a')) 300
      = escapeHtml (jsTake (String.mk (List.replicate 301 'a')) 300 ++ "...")
  ∧ (jsTake (String.mk (List.replicate 301 'a')) 300 ++ "...").length = 303 := by
  have h : 300 < (id (String.mk (List.replicate 301 'a'))).length := by
    show 300 < (List.replicate 301 'a').length
    rw [List.length_replicate]
    omega
  exact ⟨((c5_truncation id (String.mk (List.replicate 301 'a'))).1 h).1,
    ((c5_truncation id (String.mk (List.replicate 301 'a'))).1 h).2.1⟩

/-- C6 counterexample: dates that fail to parse are rendered as the fixed
string "Invalid Date" (the result of calling `toLocaleDateString` on an
Invalid Date), not as the original date string, contradicting the claim's
fallback-to-verbatim clause; the repository's own test suite asserts the
"Invalid Date" behaviour. -/
theorem c6_counterexample :
    formatDate (fun _ => none) "not-a-valid-date" = "Invalid Date"
  ∧ "Invalid Date" ≠ "not-a-valid-date" :=
  ⟨rfl, by decide⟩

/-- C6 (amended): each date string is parsed by `new Date`; on success it is
rendered as abbreviated month, day and year in the fixed en-US locale, and
on parse failure the fixed string "Invalid Date" is rendered (the `catch`
fallback returning the original string is unreachable, since neither
`new Date` on a string nor `toLocaleDateString` with the fixed valid
options throws). -/
theorem c6_date_rendering (dateParse : String → Option SimpleDate) (s : String) :
    (dateParse s = none → formatDate dateParse s = "Invalid Date")
  ∧ (∀ d, dateParse s = some d →
      formatDate dateParse s =
        monthShort d.month ++ " " ++ Nat.repr d.day ++ ", " ++ Nat.repr d.year) := by
  constructor
  · intro h
    unfold formatDate
    rw [h]
  · intro d h
    unfold formatDate
    rw [h]

/-- C6 witness: both branches at concrete dates. -/
theorem c6_witness :
    formatDate (fun _ => none) "bogus" = "Invalid Date"
  ∧ formatDate (fun _ => some ⟨2026, 2, 7⟩) "2026-02-07" = "Feb 7, 2026" := by
  refine ⟨(c6_date_rendering (fun _ => none) "bogus").1 rfl, ?_⟩
  have h := (c6_date_rendering (fun _ => some ⟨2026, 2, 7⟩) "2026-02-07").2 ⟨2026, 2, 7⟩ rfl
  rw [h]
  rfl

/-- C9: the saved-feed list operations preserve the no-duplicates invariant:
saving leaves the list unchanged when the trimmed URL is invalid or already
present and otherwise prepends the trimmed URL; removing drops every
occurrence of the URL and keeps the counts of all other entries; saving is
idempotent, and saving the same URL twice into a list not containing it
leaves exactly one occurrence. -/
theorem c9_saved_list (u : String) (l : List String) :
    (isValidFeedUrl (jsTrim u) = false → saveCurrentFeed u l = l)
  ∧ (jsTrim u ∈ l → saveCurrentFeed u l = l)
  ∧ (isValidFeedUrl (jsTrim u) = true → jsTrim u ∉ l →
      saveCurrentFeed u l = jsTrim u :: l)
  ∧ (l.Nodup → (saveCurrentFeed u l).Nodup)
  ∧ u ∉ removeSavedFeed u l
  ∧ (∀ v, v ≠ u → (removeSavedFeed u l).count v = l.count v)
  ∧ (l.Nodup → (removeSavedFeed u l).Nodup)
  ∧ List.Sublist (removeSavedFeed u l) l
  ∧ saveCurrentFeed u (saveCurrentFeed u l) = saveCurrentFeed u l
  ∧ (isValidFeedUrl (jsTrim u) = true → jsTrim u ∉ l →
      (saveCurrentFeed u (saveCurrentFeed u l)).count (jsTrim u) = 1) := by
  have h1 : ∀ m : List String, isValidFeedUrl (jsTrim u) = false →
      saveCurrentFeed u m = m := by
    intro m hv
    by_cases hz : jsTrim u = ""
    · simp only [saveCurrentFeed]
      rw [if_pos hz]
    · simp only [saveCurrentFeed]
      rw [if_neg hz, if_pos hv]
  have h2 : ∀ m : List String, jsTrim u ∈ m → saveCurrentFeed u m = m := by
    intro m hm
    by_cases hz : jsTrim u = ""
    · simp only [saveCurrentFeed]
      rw [if_pos hz]
    · by_cases hv : isValidFeedUrl (jsTrim u) = false
      · exact h1 m hv
      · simp only [saveCurrentFeed]
        rw [if_neg hz, if_neg hv, if_pos (List.elem_iff.mpr hm)]
  have h3 : ∀ m : List String, isValidFeedUrl (jsTrim u) = true → jsTrim u ∉ m →
      saveCurrentFeed u m = jsTrim u :: m := by
    intro m hv hm
    have hz : jsTrim u ≠ "" := by
      intro e
      rw [e] at hv
      exact absurd hv (by decide)
    simp only [saveCurrentFeed]
    rw [if_neg hz, if_neg (by simp [hv]), if_neg (by simp [List.elem_iff, hm])]
  refine ⟨h1 l, h2 l, h3 l, ?_, ?_, ?_, ?_, ?_, ?_, ?_⟩
  · intro hl
    by_cases hv : isValidFeedUrl (jsTrim u) = false
    · rw [h1 l hv]; exact hl
    · have hv' : isValidFeedUrl (jsTrim u) = true := by
        revert hv
        cases isValidFeedUrl (jsTrim u) <;> simp
      by_cases hm : jsTrim u ∈ l
      · rw [h2 l hm]; exact hl
      · rw [h3 l hv' hm]
        exact List.nodup_cons.mpr ⟨hm, hl⟩
  · simp [removeSavedFeed, List.mem_filter]
  · intro v hne
    unfold removeSavedFeed
    exact List.count_filter (by simp [hne])
  · intro hl
    exact hl.filter _
  · exact List.filter_sublist l
  · by_cases hv : isValidFeedUrl (jsTrim u) = false
    · rw [h1 l hv]
      exact h1 l hv
    · have hv' : isValidFeedUrl (jsTrim u) = true := by
        revert hv
        cases isValidFeedUrl (jsTrim u) <;> simp
      by_cases hm : jsTrim u ∈ l
      · rw [h2 l hm]
        exact h2 l hm
      · rw [h3 l hv' hm]
        exact h2 (jsTrim u :: l) (by simp)
  · intro hv hm
    rw [h3 l hv hm, h2 (jsTrim u :: l) (by simp)]
    simp [List.count_cons, List.count_eq_zero.mpr hm]

/-- C9 witness: concrete saves and removes with the theorem applied: saving
twice keeps one occurrence, an invalid (ftp) URL is a no-op, and remove
deletes the entry. -/
theorem c9_witness :
    saveCurrentFeed "https://example.com/feed"
        (saveCurrentFeed "https://example.com/feed" ["https://other.com/x"])
      = saveCurrentFeed "https://example.com/feed" ["https://other.com/x"]
  ∧ saveCurrentFeed "ftp://example.com/feed" ["https://other.com/x"] = ["https://other.com/x"]
  ∧ (saveCurrentFeed "https://example.com/feed"
        (saveCurrentFeed "https://example.com/feed" [])).count
          (jsTrim "https://example.com/feed") = 1 :=
  ⟨(c9_saved_list "https://example.com/feed" ["https://other.com/x"]).2.2.2.2.2.2.2.2.1,
   (c9_saved_list "ftp://example.com/feed" ["https://other.com/x"]).1 (by decide),
   (c9_saved_list "https://example.com/feed" []).2.2.2.2.2.2.2.2.2 (by decide) (by decide)⟩

/-- C10: reading the saved-feed list is total over arbitrary persisted
content: an absent raw value, a raw value on which JSON.parse throws, and a
parse result that is not an array all yield `[]`, and every string the
function does return has a non-empty trim (malformed elements are dropped,
nothing is thrown). -/
theorem c10_read_total (parse : String → Option JVal) (raw : Option String) :
    (∀ s ∈ readSavedFeeds parse raw, jsTrim s ≠ "")
  ∧ readSavedFeeds parse none = []
  ∧ (∀ r, parse r = none → readSavedFeeds parse (some r) = [])
  ∧ (∀ r v, parse r = some v → (∀ xs, v ≠ JVal.jarr xs) →
      readSavedFeeds parse (some r) = []) := by
  refine ⟨?_, rfl, ?_, ?_⟩
  · intro s hs
    cases raw with
    | none => simp [readSavedFeeds] at hs
    | some r =>
      by_cases hr : r = ""
      · simp [readSavedFeeds, hr] at hs
      · simp only [readSavedFeeds] at hs
        rw [if_neg hr] at hs
        cases hp : parse r with
        | none => rw [hp] at hs; simp at hs
        | some v =>
          rw [hp] at hs
          cases v with
          | jarr xs =>
            rcases List.mem_filterMap.mp hs with ⟨x, -, hx⟩
            cases x with
            | jnull => simp at hx
            | jbool b => simp at hx
            | jnum n => simp at hx
            | jobj f => simp at hx
            | jarr ys => simp at hx
            | jstr s' =>
              have hx' : (if jsTrim s' = "" then (none : Option String) else some s') = some s := hx
              by_cases ht : jsTrim s' = ""
              · rw [if_pos ht] at hx'
                simp at hx'
              · rw [if_neg ht] at hx'
                rw [Option.some.injEq] at hx'
                rw [← hx']
                exact ht
          | jnull => simp at hs
          | jbool b => simp at hs
          | jnum n => simp at hs
          | jstr t => simp at hs
          | jobj f => simp at hs
  · intro r hp
    by_cases hr : r = ""
    · simp [readSavedFeeds, hr]
    · simp [readSavedFeeds, hr, hp]
  · intro r v hp hv
    by_cases hr : r = ""
    · simp [readSavedFeeds, hr]
    · simp only [readSavedFeeds]
      rw [if_neg hr, hp]
      cases v with
      | jarr xs => exact absurd rfl (hv xs)
      | jnull => rfl
      | jbool b => rfl
      | jnum n => rfl
      | jstr t => rfl
      | jobj f => rfl

/-- C10 witness: a stored array mixing a good URL, a number and a
whitespace-only string keeps only the good URL, whose trim is non-empty. -/
theorem c10_witness : jsTrim "https://a.com" ≠ "" :=
  (c10_read_total
    (fun _ => some (JVal.jarr [JVal.jstr "https://a.com", JVal.jnum 5, JVal.jstr "   "]))
    (some "[\"https://a.com\", 5, \"   \"]")).1 "https://a.com" (by decide)

/-- C7: rendering proceeds in order: a `parsererror` marker anywhere in the
parsed tree fails with the parse-error message; otherwise a present
`channel` element renders as RSS (taking priority over any `feed` element);
otherwise a present `feed` element renders as Atom; otherwise the
unrecognized-format message is produced. -/
theorem c7_format_detection (env : JsEnv) (doc : List XNode) :
    ((qs1Doc "parsererror" doc).isSome = true →
      renderFeed env doc = .parseError "Failed to parse RSS feed. Invalid XML format.")
  ∧ (qs1Doc "parsererror" doc = none → ∀ ch, qs1Doc "channel" doc = some ch →
      renderFeed env doc = .rendered (displayRss env ch))
  ∧ (qs1Doc "parsererror" doc = none → qs1Doc "channel" doc = none →
      ∀ fd, qs1Doc "feed" doc = some fd →
      renderFeed env doc = .rendered (displayAtom env fd))
  ∧ (qs1Doc "parsererror" doc = none → qs1Doc "channel" doc = none →
      qs1Doc "feed" doc = none →
      renderFeed env doc =
        .unrecognized "Unrecognized feed format. Please ensure the URL is a valid RSS or Atom feed.") := by
  refine ⟨?_, ?_, ?_, ?_⟩
  · intro h
    unfold renderFeed
    rw [if_pos h]
  · intro h1 ch h2
    simp [renderFeed, h1, h2]
  · intro h1 h2 fd h3
    simp [renderFeed, h1, h2, h3]
  · intro h1 h2 h3
    simp [renderFeed, h1, h2, h3]

/-- C7 witness: a document containing both a `channel` and a `feed` element
(and no parsererror) is rendered as RSS from the channel. -/
theorem c7_witness :
    renderFeed ⟨fun _ => none, id⟩
        [XNode.elem "rss" [] [XNode.elem "channel" [] [], XNode.elem "feed" [] []]]
      = .rendered (displayRss ⟨fun _ => none, id⟩ (XNode.elem "channel" [] [])) :=
  (c7_format_detection ⟨fun _ => none, id⟩
      [XNode.elem "rss" [] [XNode.elem "channel" [] [], XNode.elem "feed" [] []]]).2.1
    rfl (XNode.elem "channel" [] []) rfl

theorem items_label_in_rssStats (n : Nat) (dd : Option String) :
    "Items".data <:+: (rssStatsHtml n dd).data := by
  unfold rssStatsHtml
  simp only [String.data_append]
  exact isInfixAppendL _ (isInfixAppendL _ (isInfixAppendR _ (by decide)))

theorem entries_label_in_atomStats (n : Nat) (dd : Option String) :
    "Entries".data <:+: (atomStatsHtml n dd).data := by
  unfold atomStatsHtml
  simp only [String.data_append]
  exact isInfixAppendL _ (isInfixAppendL _ (isInfixAppendR _ (by decide)))

/-- C8: an RSS channel with N `item` elements renders exactly N entries, in
document order, with the count label "Items" and each entry's link taken
from the text content of the item's first `link` descendant (fallback "#");
an Atom feed with N `entry` elements renders exactly N entries with count
label "Entries" and each entry's link taken from the `href` attribute of
the entry's first `link` element — not its text content — with fallback
"#" when absent. -/
theorem c8_entry_extraction (env : JsEnv) (ch fd : XNode) :
    (qsaN "item" ch).length = cntN "item" ch
  ∧ (displayRss env ch).feedItems = String.join ((qsaN "item" ch).map (renderRssItem env))
  ∧ (displayRss env ch).feedStats
      = rssStatsHtml (cntN "item" ch) (jsStrTruthy ((qs1N "description" ch).map textContentN))
  ∧ "Items".data <:+: ((displayRss env ch).feedStats).data
  ∧ (∀ item, renderRssItem env item = rssItemHtml env
        (jsOrStr ((qs1N "title" item).map textContentN) "Untitled")
        (jsOrStr ((qs1N "link" item).map textContentN) "#")
        (jsOrStr ((qs1N "description" item).map textContentN) "")
        ((qs1N "pubDate" item).map textContentN))
  ∧ (qsaN "entry" fd).length = cntN "entry" fd
  ∧ (displayAtom env fd).feedItems = String.join ((qsaN "entry" fd).map (renderAtomEntry env))
  ∧ "Entries".data <:+: ((displayAtom env fd).feedStats).data
  ∧ (∀ e, renderAtomEntry env e = atomEntryHtml env
        (jsOrStr ((qs1N "title" e).map textContentN) "Untitled")
        (jsOrStr ((qs1N "link" e).bind (getAttr "href")) "#")
        (jsOrStr ((qs1N "summary" e).map textContentN)
          (jsOrStr ((qs1N "content" e).map textContentN) ""))
        ((qs1N "updated" e).map textContentN)) := by
  refine ⟨qsaN_len "item" ch, rfl, ?_, ?_, fun item => rfl,
    qsaN_len "entry" fd, rfl, ?_, fun e => rfl⟩
  · rw [show (displayRss env ch).feedStats = rssStatsHtml (qsaN "item" ch).length
      (jsStrTruthy ((qs1N "description" ch).map textContentN)) from rfl, qsaN_len]
  · exact items_label_in_rssStats (qsaN "item" ch).length _
  · exact entries_label_in_atomStats (qsaN "entry" fd).length _

/-- C1 counterexample: `escapeHtml` (a text-node round-trip) does not encode
quote characters — a double quote passes through unchanged — so the claim's
"and quote characters" clause fails on the code; the repository's own tests
note that the round-trip preserves literal quotes. -/
theorem c1_counterexample :
    escapeHtml "\"" = "\"" ∧ '"' ∈ (escapeHtml "\"").data :=
  ⟨rfl, by decide⟩

/-- C1 (amended): every extracted feed string inserted into markup (titles,
links, descriptions, subtitles) is HTML-escaped, encoding `&`, `<` and `>`
(quote characters are left unchanged by the text-node round-trip); escaped
output never contains `<` or `>`, stripped-and-truncated body text never
contains `<`, and the full rendered item markup of both the RSS and the
Atom renderer never contains a `<script` substring, whatever the feed
content. -/
theorem c1_injection_safety (env : JsEnv) (s : String) (ch fd : XNode) :
    escapeHtml "&" = "&amp;" ∧ escapeHtml "<" = "&lt;" ∧ escapeHtml ">" = "&gt;"
  ∧ '<' ∉ (escapeHtml s).data ∧ '>' ∉ (escapeHtml s).data
  ∧ (∀ (toText : String → String) (html : String) (n : Nat),
      '<' ∉ (stripHtml toText html n).data)
  ∧ ¬ ("<script".data <:+: ((displayRss env ch).feedItems).data)
  ∧ ¬ ("<script".data <:+: ((displayAtom env fd).feedItems).data) :=
  ⟨rfl, rfl, rfl, escapeHtml_no_lt s, escapeHtml_no_gt s,
   fun toText html n => stripHtml_no_lt toText html n,
   not_script_of_safeChunk (safeChunk_displayRss_items env ch),
   not_script_of_safeChunk (safeChunk_displayAtom_items env fd)⟩

/-- C1 witness: the amended theorem applied at a concrete channel whose item
description carries script markup: the rendered markup has no `<script`
substring. -/
theorem c1_witness :
    ¬ ("<script".data <:+:
      ((displayRss ⟨fun _ => none, id⟩
        (XNode.elem "channel" []
          [XNode.elem "item" []
            [XNode.elem "description" []
              [XNode.text "<script>alert(1)</script>"]]])).feedItems).data) :=
  (c1_injection_safety ⟨fun _ => none, id⟩ ""
    (XNode.elem "channel" []
      [XNode.elem "item" []
        [XNode.elem "description" []
          [XNode.text "<script>alert(1)</script>"]]])
    (XNode.elem "feed" [] [])).2.2.2.2.2.2.1
